import Mathlib

/-!
Verification of the watgbridge core subsystems: the rate-limited dispatch
queues (src/queue/queue.go) and the reconciliation scheduler / orphan
sweeper (src/scheduler/scheduler.go).

Go strings are modelled as Lean String values, Go int64 identifiers as Int
(no arithmetic beyond comparison is performed on them, so no wraparound is
involved), Go errors as Option String (none = nil error, some s = an error
whose Error() text is s).
-/

namespace Watgbridge

/-! ## Go string helpers

`goToUpper` models `strings.ToUpper` (the source only matches ASCII
patterns), `goContains` models `strings.Contains`. -/

/-- Model of Go strings.ToUpper restricted to its ASCII behaviour. -/
def goToUpper (s : String) : String :=
  String.mk (s.data.map Char.toUpper)

/-- Decides whether pat occurs as a contiguous substring of l. -/
def listIsInfixOf (pat : List Char) : List Char → Bool
  | [] => pat.isEmpty
  | c :: rest => pat.isPrefixOf (c :: rest) || listIsInfixOf pat rest

/-- Model of Go strings.Contains s pat. -/
def goContains (s pat : String) : Bool :=
  listIsInfixOf pat.data s.data

/-! ## Probe error classification (src/scheduler/scheduler.go lines 121-137) -/

/-- Source isTopicNotFound body for a non-nil error with text e. -/
def isTopicNotFound (e : String) : Bool :=
  let msg := goToUpper e
  goContains msg "TOPIC_NOT_FOUND" || goContains msg "TOPIC_ID_INVALID" ||
    goContains msg "MESSAGE_THREAD_INVALID"

/-- Source isTopicNotModified body for a non-nil error with text e. -/
def isTopicNotModified (e : String) : Bool :=
  let msg := goToUpper e
  goContains msg "TOPIC_NOT_MODIFIED"

/-- Source isTopicNotFound on a Go error value (nil handled first). -/
def isTopicNotFoundErr : Option String → Bool
  | none => false
  | some s => isTopicNotFound s

/-- Source isTopicNotModified on a Go error value (nil handled first). -/
def isTopicNotModifiedErr : Option String → Bool
  | none => false
  | some s => isTopicNotModified s

/-- Outcome classification of a topic existence probe (spec section 4.3). -/
inductive ProbeOutcome where
  | Exists
  | Unchanged
  | NotFound
deriving DecidableEq

/-- Classification realised by the branch structure of cleanupDeletedTopics:
the branch taken for a probe error is exactly determined by this function
(NotFound = the cascade-delete branch, Unchanged = the resync branch,
Exists = the silent continue). -/
def classifyProbe (probeErr : Option String) : ProbeOutcome :=
  if probeErr.isNone || !isTopicNotFoundErr probeErr then
    if isTopicNotModifiedErr probeErr then ProbeOutcome.Unchanged
    else ProbeOutcome.Exists
  else ProbeOutcome.NotFound

/-- Case-insensitive substring match, the wording of the specification:
both the subject and the pattern are upper-cased before matching. -/
def ciContains (s pat : String) : Bool :=
  listIsInfixOf (pat.data.map Char.toUpper) (s.data.map Char.toUpper)

/-- Classification as worded by the specification: a case-insensitive
substring match against the three not-found signatures, then against the
not-modified signature, with nil and everything else mapping to Exists. -/
def specClassify : Option String → ProbeOutcome
  | none => ProbeOutcome.Exists
  | some s =>
    if ciContains s "TOPIC_NOT_FOUND" || ciContains s "TOPIC_ID_INVALID" ||
        ciContains s "MESSAGE_THREAD_INVALID" then ProbeOutcome.NotFound
    else if ciContains s "TOPIC_NOT_MODIFIED" then ProbeOutcome.Unchanged
    else ProbeOutcome.Exists

lemma upat_not_found :
    ("TOPIC_NOT_FOUND").data.map Char.toUpper = ("TOPIC_NOT_FOUND").data := by decide

lemma upat_id_invalid :
    ("TOPIC_ID_INVALID").data.map Char.toUpper = ("TOPIC_ID_INVALID").data := by decide

lemma upat_thread_invalid :
    ("MESSAGE_THREAD_INVALID").data.map Char.toUpper =
      ("MESSAGE_THREAD_INVALID").data := by decide

lemma upat_not_modified :
    ("TOPIC_NOT_MODIFIED").data.map Char.toUpper =
      ("TOPIC_NOT_MODIFIED").data := by decide

lemma isTopicNotFound_eq_ci (s : String) :
    isTopicNotFound s =
      (ciContains s "TOPIC_NOT_FOUND" || ciContains s "TOPIC_ID_INVALID" ||
        ciContains s "MESSAGE_THREAD_INVALID") := by
  unfold isTopicNotFound ciContains goContains goToUpper
  rw [upat_not_found, upat_id_invalid, upat_thread_invalid]

lemma isTopicNotModified_eq_ci (s : String) :
    isTopicNotModified s = ciContains s "TOPIC_NOT_MODIFIED" := by
  unfold isTopicNotModified ciContains goContains goToUpper
  rw [upat_not_modified]

/-- C3: for every probe error value the code's classification agrees with
the specification's: a case-insensitive substring match classifying any of
the three not-found signatures as NotFound, a not-modified signature (with
no not-found signature present) as Unchanged, and a nil error as well as
every other error as Exists. -/
theorem classifyProbe_eq_specClassify (probeErr : Option String) :
    classifyProbe probeErr = specClassify probeErr := by
  cases probeErr with
  | none => rfl
  | some s =>
    simp only [classifyProbe, specClassify, isTopicNotFoundErr, isTopicNotModifiedErr,
      Option.isNone_some, Bool.false_or, isTopicNotFound_eq_ci, isTopicNotModified_eq_ci]
    cases h : (ciContains s "TOPIC_NOT_FOUND" || ciContains s "TOPIC_ID_INVALID" ||
        ciContains s "MESSAGE_THREAD_INVALID") <;> simp

/-! ## Persisted mapping store

The database package itself is not part of the analysed sources; its row
types and query functions are modelled from the specification (section 3
and section 6). -/

/-- Modelled from the spec: a ChatThreadPair row, the durable mapping
between one WhatsApp chat (field ID, the peer chat identifier the
scheduler logs as wa_chat_id) and one Telegram forum topic. -/
structure ChatThreadPair where
  ID : String
  tgChatId : Int
  tgThreadId : Int
deriving DecidableEq

/-- Modelled from the spec: a MessageIdPair row, the durable mapping
between one message on each platform, scoped to a topic. -/
structure MsgIdPair where
  tgChatId : Int
  tgThreadId : Int
  waMsgId : String
  tgMsgId : Int
deriving DecidableEq

/-- The two tables of the persisted mapping store that the scheduler reads
and deletes from. -/
structure Store where
  chatThreadPairs : List ChatThreadPair
  msgIdPairs : List MsgIdPair
deriving DecidableEq

/-- Modelled from the spec: getAllChatThreadPairs(groupId), the pairing
rows of one Telegram group. -/
def ChatThreadGetAllPairs (tgChatId : Int) (st : Store) : List ChatThreadPair :=
  st.chatThreadPairs.filter (fun p => p.tgChatId == tgChatId)

/-- Modelled from the spec: deleteMessagePairsByThread(groupId, threadId),
removing every MsgIdPair row of that group and thread. -/
def MsgIdDeletePairsByThreadId (tgChatId tgThreadId : Int) (st : Store) : Store :=
  { st with msgIdPairs :=
      st.msgIdPairs.filter (fun m => !(m.tgChatId == tgChatId && m.tgThreadId == tgThreadId)) }

/-- Modelled from the spec: dropChatThreadPair(groupId, threadId),
removing the ChatThreadPair row of that group and thread. -/
def ChatThreadDropPairByTg (tgChatId tgThreadId : Int) (st : Store) : Store :=
  { st with chatThreadPairs :=
      st.chatThreadPairs.filter (fun p => !(p.tgChatId == tgChatId && p.tgThreadId == tgThreadId)) }

/-! ## Reconciliation scheduler (src/scheduler/scheduler.go lines 52-119)

The external collaborators are modelled by an environment: whether the
Telegram bot handle is nil, the outcome of each fallible collaborator
call (probe errors as Option String, database deletes as success flags),
and the target group id from the configuration. Externally visible calls
are recorded in an effect trace. -/

/-- Environment of one scheduler tick: the bot handle, the configured
group id, and oracles giving the outcome of every collaborator call. -/
structure SchedulerEnv where
  botPresent : Bool
  syncContactsOk : Bool
  fetchOk : Bool
  tgChatId : Int
  probe : Int → Int → Option String
  msgDelOk : Int → Int → Bool
  pairDelOk : Int → Int → Bool

/-- Externally visible calls made during a scheduler tick, in order. -/
inductive Effect where
  | syncContacts (ok : Bool)
  | fetchedPairs (tgChatId : Int) (ok : Bool)
  | probed (tgChatId tgThreadId : Int)
  | resync (tgChatId : Int)
  | msgDelAttempt (tgChatId tgThreadId : Int) (ok : Bool)
  | pairDropAttempt (tgChatId tgThreadId : Int) (ok : Bool)
deriving DecidableEq

/-- Body of the per-pair loop of cleanupDeletedTopics: skip the default
topics, probe via TgReopenForumTopic, then either resync, do nothing, or
cascade-delete with each delete attempted independently of the other's
failure. Returns the store after the iteration and its effect trace. -/
def stepPair (env : SchedulerEnv) (st : Store) (pair : ChatThreadPair) :
    Store × List Effect :=
  let threadId := pair.tgThreadId
  if threadId ≤ 1 then (st, [])
  else
    let probeErr := env.probe env.tgChatId threadId
    if probeErr.isNone || !isTopicNotFoundErr probeErr then
      if isTopicNotModifiedErr probeErr then
        (st, [Effect.probed env.tgChatId threadId, Effect.resync env.tgChatId])
      else
        (st, [Effect.probed env.tgChatId threadId])
    else
      let st1 := if env.msgDelOk env.tgChatId threadId then
          MsgIdDeletePairsByThreadId env.tgChatId threadId st else st
      let st2 := if env.pairDelOk env.tgChatId threadId then
          ChatThreadDropPairByTg env.tgChatId threadId st1 else st1
      (st2, [Effect.probed env.tgChatId threadId,
             Effect.msgDelAttempt env.tgChatId threadId (env.msgDelOk env.tgChatId threadId),
             Effect.pairDropAttempt env.tgChatId threadId (env.pairDelOk env.tgChatId threadId)])

/-- Sequential iteration of the cleanup loop over the snapshot of pairing
rows, threading the store and concatenating the effect traces. -/
def runPairs (env : SchedulerEnv) : Store → List ChatThreadPair → Store × List Effect
  | st, [] => (st, [])
  | st, pair :: rest =>
    let r1 := stepPair env st pair
    let r2 := runPairs env r1.1 rest
    (r2.1, r1.2 ++ r2.2)

/-- Model of cleanupDeletedTopics: return at a nil bot handle, otherwise
sync contacts (failure logged only), fetch the pairing rows (failure ends
the tick), and run the per-pair loop on the fetched snapshot. -/
def cleanupDeletedTopics (env : SchedulerEnv) (st : Store) : Store × List Effect :=
  if env.botPresent then
    if env.fetchOk then
      ((runPairs env st (ChatThreadGetAllPairs env.tgChatId st)).1,
       [Effect.syncContacts env.syncContactsOk,
        Effect.fetchedPairs env.tgChatId env.fetchOk]
         ++ (runPairs env st (ChatThreadGetAllPairs env.tgChatId st)).2)
    else
      (st, [Effect.syncContacts env.syncContactsOk,
            Effect.fetchedPairs env.tgChatId env.fetchOk])
  else (st, [])

/-! ## Orphan sweeper (src/scheduler/scheduler.go lines 33-50)

The raw SQL is
DELETE a FROM msg_id_pairs AS a LEFT JOIN chat_thread_pairs AS b
ON a.tg_thread_id = b.tg_thread_id WHERE b.tg_thread_id IS NULL
so a msg_id_pairs row survives exactly when some chat_thread_pairs row has
the same tg_thread_id; the join does not constrain tg_chat_id. -/

/-- Model of CleanUpMsg: with a database handle and a successful Exec, keep
exactly the message rows whose tg_thread_id occurs in chat_thread_pairs. -/
def CleanUpMsg (hasDb execOk : Bool) (st : Store) : Store :=
  if hasDb then
    if execOk then
      { st with msgIdPairs :=
          st.msgIdPairs.filter (fun a =>
            st.chatThreadPairs.any (fun b => b.tgThreadId == a.tgThreadId)) }
    else st
  else st

/-- Number of rows the sweep statement would delete on store st. -/
def cleanUpMsgRowsAffected (st : Store) : Nat :=
  (st.msgIdPairs.filter (fun a =>
    !(st.chatThreadPairs.any (fun b => b.tgThreadId == a.tgThreadId)))).length

/-! ## Rate-limited dispatch queues (src/queue/queue.go)

Each platform queue is a buffered channel of capacity QueueSize consumed
by exactly one worker goroutine (waJobCh with waWorker, tgJobCh with
tgWorker, both launched once by StartWorkers); WaSend and TgRun wrap a
call as a job that writes its (value, error) pair into a fresh capacity-1
result channel, enqueue it, and block reading that channel. The model is
an interleaving transition system, parametric in the result type R and in
fnOf, the pure outcome the j-th submitted closure produces when the worker
runs it. Submitted jobs carry distinct identifiers, matching the fresh
result channel created per call. -/

/-- Capacity of each platform's job channel (source: QueueSize = 1000). -/
def QueueSize : Nat := 1000

/-- State of one dispatch queue: jobs ever submitted in order, the channel
buffer in order, the job the worker is currently executing, finished jobs
in completion order, each job's result channel content, and the value each
blocked submitter has read back. -/
structure QState (R : Type) where
  submitted : List Nat
  pending : List Nat
  running : Option Nat
  done : List Nat
  results : Nat → Option R
  returned : Nat → Option R

/-- Initial state: nothing submitted, worker idle, all channels empty. -/
def initQState (R : Type) : QState R :=
  { submitted := [], pending := [], running := none, done := [],
    results := fun _ => none, returned := fun _ => none }

/-- Writes value v into slot j of a result-channel map. -/
def setSlot {R : Type} (f : Nat → Option R) (j : Nat) (v : R) : Nat → Option R :=
  fun k => if k = j then some v else f k

/-- Transition labels of the queue model. -/
inductive QLabel where
  | submit (j : Nat)
  | take (j : Nat)
  | finish (j : Nat)
  | ret (j : Nat)

/-- Interleaving semantics of one dispatch queue. submit: a caller
enqueues a fresh job, enabled only while the buffer holds fewer than
QueueSize jobs (a full channel blocks the sender). take: the single
worker, when idle, dequeues the head of the FIFO buffer. finish: the
worker completes the running job, writing fnOf j into the job's capacity-1
result channel. ret: the blocked submitter reads the result channel once
it holds a value. -/
inductive QStep {R : Type} (fnOf : Nat → R) : QLabel → QState R → QState R → Prop where
  | submit (s : QState R) (j : Nat) (h1 : j ∉ s.submitted)
      (h2 : s.pending.length < QueueSize) :
      QStep fnOf (QLabel.submit j) s
        { s with submitted := s.submitted ++ [j], pending := s.pending ++ [j] }
  | take (s : QState R) (j : Nat) (rest : List Nat) (h1 : s.running = none)
      (h2 : s.pending = j :: rest) :
      QStep fnOf (QLabel.take j) s { s with running := some j, pending := rest }
  | finish (s : QState R) (j : Nat) (h : s.running = some j) :
      QStep fnOf (QLabel.finish j) s
        { s with running := none, done := s.done ++ [j],
                 results := setSlot s.results j (fnOf j) }
  | ret (s : QState R) (j : Nat) (v : R) (h1 : s.results j = some v)
      (h2 : s.returned j = none) :
      QStep fnOf (QLabel.ret j) s { s with returned := setSlot s.returned j v }

/-- States reachable from the initial empty queue. -/
inductive QReachable {R : Type} (fnOf : Nat → R) : QState R → Prop where
  | init : QReachable fnOf (initQState R)
  | step {s t : QState R} {l : QLabel} :
      QReachable fnOf s → QStep fnOf l s t → QReachable fnOf t

/-- Inductive invariant of the queue model: the FIFO decomposition of the
submission order, the buffer bound, and the agreement of result channels
and returned values with the submitted closures. -/
def QInv {R : Type} (fnOf : Nat → R) (s : QState R) : Prop :=
  s.done ++ s.running.toList ++ s.pending = s.submitted
  ∧ s.pending.length ≤ QueueSize
  ∧ (∀ j v, s.results j = some v → v = fnOf j ∧ j ∈ s.done)
  ∧ (∀ j v, s.returned j = some v → v = fnOf j ∧ j ∈ s.done)

lemma qinv_init {R : Type} (fnOf : Nat → R) : QInv fnOf (initQState R) := by
  refine ⟨rfl, by simp [initQState], ?_, ?_⟩ <;>
    intro j v h <;> simp [initQState] at h

lemma qinv_step {R : Type} {fnOf : Nat → R} {l : QLabel} {s t : QState R}
    (hinv : QInv fnOf s) (hstep : QStep fnOf l s t) : QInv fnOf t := by
  obtain ⟨hfifo, hlen, hres, hret⟩ := hinv
  cases hstep with
  | submit s j h1 h2 =>
    refine ⟨?_, ?_, ?_, ?_⟩
    · simp only [← hfifo, List.append_assoc]
    · simpa using h2
    · intro k v h
      exact hres k v h
    · intro k v h
      exact hret k v h
  | take s j rest h1 h2 =>
    refine ⟨?_, ?_, ?_, ?_⟩
    · rw [← hfifo, h1, h2]
      simp
    · have hl := hlen
      rw [h2] at hl
      simp only [List.length_cons] at hl
      show rest.length ≤ QueueSize
      omega
    · intro k v h
      exact hres k v h
    · intro k v h
      exact hret k v h
  | finish s j h =>
    refine ⟨?_, hlen, ?_, ?_⟩
    · rw [← hfifo, h]
      simp
    · intro k v hk
      by_cases hkj : k = j
      · subst hkj
        simp only [setSlot, if_pos, Option.some.injEq] at hk
        exact ⟨hk.symm, by simp⟩
      · simp only [setSlot, if_neg hkj] at hk
        obtain ⟨hv, hd⟩ := hres k v hk
        exact ⟨hv, by simp [hd]⟩
    · intro k v hk
      obtain ⟨hv, hd⟩ := hret k v hk
      exact ⟨hv, by simp [hd]⟩
  | ret s j v h1 h2 =>
    refine ⟨hfifo, hlen, hres, ?_⟩
    intro k w hk
    by_cases hkj : k = j
    · subst hkj
      simp only [setSlot, if_pos, Option.some.injEq] at hk
      rw [← hk]
      exact hres k v h1
    · simp only [setSlot, if_neg hkj] at hk
      exact hret k w hk

lemma qinv_reachable {R : Type} {fnOf : Nat → R} {s : QState R}
    (h : QReachable fnOf s) : QInv fnOf s := by
  induction h with
  | init => exact qinv_init fnOf
  | step hr hs ih => exact qinv_step ih hs

/-- C1: in every reachable queue state the completed jobs, the job the
worker is executing, and the buffered jobs concatenate (in that order) to
the full submission order, so jobs are executed in strict FIFO submission
order; at most one job is in flight, and an execution can only start when
the worker is idle and only with the head of the FIFO buffer, so
executions never overlap. The model is parametric in the platform, so it
covers both the WhatsApp queue (waJobCh, waWorker) and the Telegram queue
(tgJobCh, tgWorker). -/
theorem dispatch_fifo_no_overlap {R : Type} (fnOf : Nat → R) (s : QState R)
    (h : QReachable fnOf s) :
    s.done ++ s.running.toList ++ s.pending = s.submitted
    ∧ s.running.toList.length ≤ 1
    ∧ (∀ j t, QStep fnOf (QLabel.take j) s t →
        s.running = none ∧ s.pending.head? = some j) := by
  obtain ⟨hfifo, -, -, -⟩ := qinv_reachable h
  refine ⟨hfifo, ?_, ?_⟩
  · cases s.running <;> simp
  · intro j t hstep
    cases hstep with
    | take s j rest h1 h2 =>
      refine ⟨h1, ?_⟩
      rw [h2]
      rfl

/-- Concrete instantiation of the FIFO theorem at the initial state. -/
def fn42 : Nat → Int × Option String := fun _ => (42, none)

theorem dispatch_fifo_no_overlap_witness :
    (initQState (Int × Option String)).done
        ++ (initQState (Int × Option String)).running.toList
        ++ (initQState (Int × Option String)).pending
      = (initQState (Int × Option String)).submitted :=
  (dispatch_fifo_no_overlap fn42 (initQState (Int × Option String)) QReachable.init).1

/-- C2: in every reachable queue state, whatever value a submitter has
read back for its job j is exactly fnOf j, the pair the submitted closure
produces, unmodified, and the job has been executed to completion by the
worker before the submitter could read it. This is the TgRun (and WaSend)
contract: block until the job ran, then return its (value, error) pair
verbatim. -/
theorem TgRun_returns_verbatim {R : Type} (fnOf : Nat → R) (s : QState R)
    (h : QReachable fnOf s) (j : Nat) (v : R) (hret : s.returned j = some v) :
    v = fnOf j ∧ j ∈ s.done :=
  (qinv_reachable h).2.2.2 j v hret

/-- Queue states of a concrete run: submit job 0, worker takes it, worker
finishes it writing fn42 0 = (42, nil), submitter reads the result. -/
def qs1 : QState (Int × Option String) :=
  { submitted := [0], pending := [0], running := none, done := [],
    results := fun _ => none, returned := fun _ => none }

def qs2 : QState (Int × Option String) :=
  { submitted := [0], pending := [], running := some 0, done := [],
    results := fun _ => none, returned := fun _ => none }

def qs3 : QState (Int × Option String) :=
  { submitted := [0], pending := [], running := none, done := [0],
    results := setSlot (fun _ => none) 0 (42, none), returned := fun _ => none }

def qs4 : QState (Int × Option String) :=
  { submitted := [0], pending := [], running := none, done := [0],
    results := setSlot (fun _ => none) 0 (42, none),
    returned := setSlot (fun _ => none) 0 (42, none) }

lemma qs4_reachable : QReachable fn42 qs4 := by
  have h0 : QReachable fn42 (initQState (Int × Option String)) := QReachable.init
  have hs1 : QStep fn42 (QLabel.submit 0) (initQState (Int × Option String)) qs1 := by
    apply QStep.submit <;> decide
  have hs2 : QStep fn42 (QLabel.take 0) qs1 qs2 := by
    apply QStep.take <;> rfl
  have hs3 : QStep fn42 (QLabel.finish 0) qs2 qs3 := by
    apply QStep.finish
    rfl
  have hs4 : QStep fn42 (QLabel.ret 0) qs3 qs4 := by
    apply QStep.ret <;> rfl
  exact QReachable.step (QReachable.step (QReachable.step (QReachable.step h0 hs1) hs2) hs3) hs4

theorem TgRun_returns_verbatim_witness :
    ((42 : Int), (none : Option String)) = fn42 0 ∧ 0 ∈ qs4.done :=
  TgRun_returns_verbatim fn42 qs4 qs4_reachable 0 (42, none) rfl

/-- C6: the buffer capacity is the fixed constant QueueSize = 1000; in
every reachable state the buffer holds at most QueueSize pending jobs; a
submission is enabled (does not block) whenever the buffer holds fewer
than QueueSize jobs, so up to QueueSize pending jobs Submit does not block
on enqueue; no submit transition exists from a state whose buffer already
holds QueueSize jobs, so the QueueSize + 1-th concurrent submission blocks
until space is available; and every submitted job is still accounted for
as done, running, or pending, so no job is ever dropped. -/
theorem queue_backpressure {R : Type} (fnOf : Nat → R) (s : QState R)
    (h : QReachable fnOf s) :
    QueueSize = 1000
    ∧ s.pending.length ≤ QueueSize
    ∧ (∀ j, j ∉ s.submitted → s.pending.length < QueueSize →
        QStep fnOf (QLabel.submit j) s
          { s with submitted := s.submitted ++ [j], pending := s.pending ++ [j] })
    ∧ (∀ j t, QueueSize ≤ s.pending.length → ¬ QStep fnOf (QLabel.submit j) s t)
    ∧ (∀ j, j ∈ s.submitted → j ∈ s.done ∨ s.running = some j ∨ j ∈ s.pending) := by
  obtain ⟨hfifo, hlen, -, -⟩ := qinv_reachable h
  refine ⟨rfl, hlen, ?_, ?_, ?_⟩
  · intro j hj hlt
    exact QStep.submit s j hj hlt
  · intro j t hge hstep
    cases hstep with
    | submit s j h1 h2 => omega
  · intro j hj
    rw [← hfifo] at hj
    simp only [List.append_assoc, List.mem_append] at hj
    rcases hj with hd | hr | hp
    · exact Or.inl hd
    · refine Or.inr (Or.inl ?_)
      cases hrun : s.running with
      | none =>
        rw [hrun] at hr
        simp at hr
      | some k =>
        rw [hrun] at hr
        simp only [Option.toList_some, List.mem_singleton] at hr
        rw [hr]
    · exact Or.inr (Or.inr hp)

theorem queue_backpressure_witness :
    QueueSize = 1000 ∧ (initQState (Int × Option String)).pending.length ≤ QueueSize :=
  ⟨(queue_backpressure fn42 (initQState (Int × Option String)) QReachable.init).1,
   (queue_backpressure fn42 (initQState (Int × Option String)) QReachable.init).2.1⟩

/-! ## Branch shape lemmas for the scheduler loop body -/

lemma stepPair_skip (env : SchedulerEnv) (st : Store) (q : ChatThreadPair)
    (h : q.tgThreadId ≤ 1) : stepPair env st q = (st, []) := by
  simp only [stepPair]
  rw [if_pos h]

lemma stepPair_alive (env : SchedulerEnv) (st : Store) (q : ChatThreadPair)
    (h1 : ¬ q.tgThreadId ≤ 1)
    (h2 : ((env.probe env.tgChatId q.tgThreadId).isNone
      || !isTopicNotFoundErr (env.probe env.tgChatId q.tgThreadId)) = true) :
    stepPair env st q =
      (st, if isTopicNotModifiedErr (env.probe env.tgChatId q.tgThreadId) then
             [Effect.probed env.tgChatId q.tgThreadId, Effect.resync env.tgChatId]
           else [Effect.probed env.tgChatId q.tgThreadId]) := by
  simp only [stepPair]
  rw [if_neg h1, if_pos h2]
  split <;> rfl

lemma stepPair_notfound (env : SchedulerEnv) (st : Store) (q : ChatThreadPair)
    (h1 : ¬ q.tgThreadId ≤ 1)
    (h2 : ((env.probe env.tgChatId q.tgThreadId).isNone
      || !isTopicNotFoundErr (env.probe env.tgChatId q.tgThreadId)) = false) :
    stepPair env st q =
      ((if env.pairDelOk env.tgChatId q.tgThreadId then
          ChatThreadDropPairByTg env.tgChatId q.tgThreadId else id)
        ((if env.msgDelOk env.tgChatId q.tgThreadId then
          MsgIdDeletePairsByThreadId env.tgChatId q.tgThreadId else id) st),
       [Effect.probed env.tgChatId q.tgThreadId,
        Effect.msgDelAttempt env.tgChatId q.tgThreadId (env.msgDelOk env.tgChatId q.tgThreadId),
        Effect.pairDropAttempt env.tgChatId q.tgThreadId (env.pairDelOk env.tgChatId q.tgThreadId)]) := by
  simp only [stepPair]
  rw [if_neg h1, if_neg (by rw [h2]; exact Bool.false_ne_true)]
  by_cases hm : env.msgDelOk env.tgChatId q.tgThreadId = true <;>
    by_cases hp : env.pairDelOk env.tgChatId q.tgThreadId = true <;>
      simp [hm, hp]

lemma stepPair_branch_classify (env : SchedulerEnv) (st : Store) (q : ChatThreadPair)
    (h : ¬ q.tgThreadId ≤ 1) :
    stepPair env st q =
      match classifyProbe (env.probe env.tgChatId q.tgThreadId) with
      | ProbeOutcome.Exists => (st, [Effect.probed env.tgChatId q.tgThreadId])
      | ProbeOutcome.Unchanged =>
          (st, [Effect.probed env.tgChatId q.tgThreadId, Effect.resync env.tgChatId])
      | ProbeOutcome.NotFound =>
          ((if env.pairDelOk env.tgChatId q.tgThreadId then
              ChatThreadDropPairByTg env.tgChatId q.tgThreadId else id)
            ((if env.msgDelOk env.tgChatId q.tgThreadId then
              MsgIdDeletePairsByThreadId env.tgChatId q.tgThreadId else id) st),
           [Effect.probed env.tgChatId q.tgThreadId,
            Effect.msgDelAttempt env.tgChatId q.tgThreadId
              (env.msgDelOk env.tgChatId q.tgThreadId),
            Effect.pairDropAttempt env.tgChatId q.tgThreadId
              (env.pairDelOk env.tgChatId q.tgThreadId)]) := by
  unfold classifyProbe
  by_cases h2 : ((env.probe env.tgChatId q.tgThreadId).isNone
      || !isTopicNotFoundErr (env.probe env.tgChatId q.tgThreadId)) = true
  · rw [stepPair_alive env st q h h2, if_pos h2]
    by_cases h3 : isTopicNotModifiedErr (env.probe env.tgChatId q.tgThreadId) = true
    · rw [if_pos h3, if_pos h3]
    · rw [if_neg h3, if_neg h3]
  · rw [stepPair_notfound env st q h (Bool.eq_false_iff.mpr h2), if_neg h2]

lemma isNone_false_of_notFound {e : Option String}
    (h : isTopicNotFoundErr e = true) : e.isNone = false := by
  cases e with
  | none => simp [isTopicNotFoundErr] at h
  | some s => rfl

lemma probed_mem_stepPair (env : SchedulerEnv) (st : Store) (q : ChatThreadPair)
    (h : ¬ q.tgThreadId ≤ 1) :
    Effect.probed env.tgChatId q.tgThreadId ∈ (stepPair env st q).2 := by
  by_cases h2 : ((env.probe env.tgChatId q.tgThreadId).isNone
      || !isTopicNotFoundErr (env.probe env.tgChatId q.tgThreadId)) = true
  · rw [stepPair_alive env st q h h2]
    split <;> simp
  · rw [stepPair_notfound env st q h (Bool.eq_false_iff.mpr h2)]
    simp

lemma probed_thread_of_mem_stepPair (env : SchedulerEnv) (st : Store)
    (q : ChatThreadPair) (c t : Int)
    (h : Effect.probed c t ∈ (stepPair env st q).2) : 1 < t := by
  by_cases h1 : q.tgThreadId ≤ 1
  · rw [stepPair_skip env st q h1] at h
    simp at h
  · by_cases h2 : ((env.probe env.tgChatId q.tgThreadId).isNone
        || !isTopicNotFoundErr (env.probe env.tgChatId q.tgThreadId)) = true
    · rw [stepPair_alive env st q h1 h2] at h
      have ht : t = q.tgThreadId := by
        rcases h3 : isTopicNotModifiedErr (env.probe env.tgChatId q.tgThreadId) with _ | _ <;>
          rw [h3] at h <;> simp at h <;> tauto
      omega
    · rw [stepPair_notfound env st q h1 (Bool.eq_false_iff.mpr h2)] at h
      have ht : t = q.tgThreadId := by
        simp at h
        tauto
      omega

lemma mem_chat_drop_of_ne (c t : Int) (st : Store) (p : ChatThreadPair)
    (hp : p ∈ st.chatThreadPairs) (hne : p.tgThreadId ≠ t) :
    p ∈ (ChatThreadDropPairByTg c t st).chatThreadPairs := by
  unfold ChatThreadDropPairByTg
  refine List.mem_filter.mpr ⟨hp, ?_⟩
  simp [hne]

lemma mem_msg_del_of_ne (c t : Int) (st : Store) (m : MsgIdPair)
    (hm : m ∈ st.msgIdPairs) (hne : m.tgThreadId ≠ t) :
    m ∈ (MsgIdDeletePairsByThreadId c t st).msgIdPairs := by
  unfold MsgIdDeletePairsByThreadId
  refine List.mem_filter.mpr ⟨hm, ?_⟩
  simp [hne]

lemma stepPair_preserve_chat (env : SchedulerEnv) (st : Store) (q p : ChatThreadPair)
    (hp : p ∈ st.chatThreadPairs) (hle : p.tgThreadId ≤ 1) :
    p ∈ (stepPair env st q).1.chatThreadPairs := by
  by_cases h1 : q.tgThreadId ≤ 1
  · rw [stepPair_skip env st q h1]
    exact hp
  · by_cases h2 : ((env.probe env.tgChatId q.tgThreadId).isNone
        || !isTopicNotFoundErr (env.probe env.tgChatId q.tgThreadId)) = true
    · rw [stepPair_alive env st q h1 h2]
      exact hp
    · rw [stepPair_notfound env st q h1 (Bool.eq_false_iff.mpr h2)]
      have hne : p.tgThreadId ≠ q.tgThreadId := by omega
      have hmid : p ∈ ((if env.msgDelOk env.tgChatId q.tgThreadId then
          MsgIdDeletePairsByThreadId env.tgChatId q.tgThreadId else id) st).chatThreadPairs := by
        split
        · exact hp
        · exact hp
      split
      · exact mem_chat_drop_of_ne _ _ _ p hmid hne
      · exact hmid

lemma stepPair_preserve_msg (env : SchedulerEnv) (st : Store) (q : ChatThreadPair)
    (m : MsgIdPair) (hm : m ∈ st.msgIdPairs) (hle : m.tgThreadId ≤ 1) :
    m ∈ (stepPair env st q).1.msgIdPairs := by
  by_cases h1 : q.tgThreadId ≤ 1
  · rw [stepPair_skip env st q h1]
    exact hm
  · by_cases h2 : ((env.probe env.tgChatId q.tgThreadId).isNone
        || !isTopicNotFoundErr (env.probe env.tgChatId q.tgThreadId)) = true
    · rw [stepPair_alive env st q h1 h2]
      exact hm
    · rw [stepPair_notfound env st q h1 (Bool.eq_false_iff.mpr h2)]
      have hne : m.tgThreadId ≠ q.tgThreadId := by omega
      have hmid : m ∈ ((if env.msgDelOk env.tgChatId q.tgThreadId then
          MsgIdDeletePairsByThreadId env.tgChatId q.tgThreadId else id) st).msgIdPairs := by
        split
        · exact mem_msg_del_of_ne _ _ _ m hm hne
        · exact hm
      split
      · exact hmid
      · exact hmid

lemma runPairs_preserve (env : SchedulerEnv) (l : List ChatThreadPair) :
    ∀ st : Store,
      (∀ p, p ∈ st.chatThreadPairs → p.tgThreadId ≤ 1 →
        p ∈ (runPairs env st l).1.chatThreadPairs)
      ∧ (∀ m, m ∈ st.msgIdPairs → m.tgThreadId ≤ 1 →
        m ∈ (runPairs env st l).1.msgIdPairs)
      ∧ (∀ c t, Effect.probed c t ∈ (runPairs env st l).2 → 1 < t) := by
  induction l with
  | nil =>
    intro st
    refine ⟨fun p hp _ => hp, fun m hm _ => hm, ?_⟩
    intro c t h
    simp [runPairs] at h
  | cons q rest ih =>
    intro st
    refine ⟨?_, ?_, ?_⟩
    · intro p hp hle
      exact (ih (stepPair env st q).1).1 p (stepPair_preserve_chat env st q p hp hle) hle
    · intro m hm hle
      exact (ih (stepPair env st q).1).2.1 m (stepPair_preserve_msg env st q m hm hle) hle
    · intro c t h
      simp only [runPairs, List.mem_append] at h
      rcases h with h | h
      · exact probed_thread_of_mem_stepPair env st q c t h
      · exact (ih (stepPair env st q).1).2.2 c t h

lemma probed_mem_runPairs (env : SchedulerEnv) (l : List ChatThreadPair) :
    ∀ (st : Store) (q : ChatThreadPair), q ∈ l → ¬ q.tgThreadId ≤ 1 →
      Effect.probed env.tgChatId q.tgThreadId ∈ (runPairs env st l).2 := by
  induction l with
  | nil =>
    intro st q hq
    simp at hq
  | cons a rest ih =>
    intro st q hq hgt
    simp only [runPairs, List.mem_append]
    rcases List.mem_cons.mp hq with heq | htl
    · subst heq
      exact Or.inl (probed_mem_stepPair env st q hgt)
    · exact Or.inr (ih (stepPair env st a).1 q htl hgt)

/-! ## Concrete stores and environments used by the witnesses -/

def pairDefault : ChatThreadPair := { ID := "wa0", tgChatId := 100, tgThreadId := 1 }

def pairA : ChatThreadPair := { ID := "wa1", tgChatId := 100, tgThreadId := 50 }

def msgDefault : MsgIdPair := { tgChatId := 100, tgThreadId := 1, waMsgId := "m0", tgMsgId := 3 }

def msgA : MsgIdPair := { tgChatId := 100, tgThreadId := 50, waMsgId := "m1", tgMsgId := 7 }

def stA : Store := { chatThreadPairs := [pairDefault, pairA], msgIdPairs := [msgDefault, msgA] }

def envNotFound : SchedulerEnv :=
  { botPresent := true, syncContactsOk := true, fetchOk := true, tgChatId := 100,
    probe := fun _ _ => some "Bad Request: TOPIC_NOT_FOUND",
    msgDelOk := fun _ _ => true, pairDelOk := fun _ _ => true }

def envBoth : SchedulerEnv :=
  { botPresent := true, syncContactsOk := true, fetchOk := true, tgChatId := 100,
    probe := fun _ _ => some "TOPIC_NOT_MODIFIED after TOPIC_NOT_FOUND",
    msgDelOk := fun _ _ => true, pairDelOk := fun _ _ => true }

def envMod : SchedulerEnv :=
  { botPresent := true, syncContactsOk := true, fetchOk := true, tgChatId := 100,
    probe := fun _ _ => some "Bad Request: TOPIC_NOT_MODIFIED",
    msgDelOk := fun _ _ => true, pairDelOk := fun _ _ => true }

def envNil : SchedulerEnv :=
  { botPresent := true, syncContactsOk := true, fetchOk := true, tgChatId := 100,
    probe := fun _ _ => none,
    msgDelOk := fun _ _ => true, pairDelOk := fun _ _ => true }

def envNoBot : SchedulerEnv :=
  { botPresent := false, syncContactsOk := true, fetchOk := true, tgChatId := 100,
    probe := fun _ _ => none,
    msgDelOk := fun _ _ => true, pairDelOk := fun _ _ => true }

/-! ## Claim theorems about the scheduler -/

/-- C4: for a pairing row whose probe classifies as NotFound, the loop
body first applies the MessageIdPair delete for the row's group and
thread, then applies the ChatThreadPair delete to the outcome, each
guarded only by its own success oracle, so a failure of either delete
never prevents the attempt of the other; both delete attempts appear in
the effect trace in that order; and every later pairing row of the tick is
still probed, whatever the two delete outcomes were, so neither failure
aborts the remainder of the tick. -/
theorem cascade_delete_independent (env : SchedulerEnv) (st : Store)
    (pair : ChatThreadPair) (h1 : 1 < pair.tgThreadId)
    (h2 : isTopicNotFoundErr (env.probe env.tgChatId pair.tgThreadId) = true) :
    stepPair env st pair =
      ((if env.pairDelOk env.tgChatId pair.tgThreadId then
          ChatThreadDropPairByTg env.tgChatId pair.tgThreadId else id)
        ((if env.msgDelOk env.tgChatId pair.tgThreadId then
          MsgIdDeletePairsByThreadId env.tgChatId pair.tgThreadId else id) st),
       [Effect.probed env.tgChatId pair.tgThreadId,
        Effect.msgDelAttempt env.tgChatId pair.tgThreadId
          (env.msgDelOk env.tgChatId pair.tgThreadId),
        Effect.pairDropAttempt env.tgChatId pair.tgThreadId
          (env.pairDelOk env.tgChatId pair.tgThreadId)])
    ∧ (∀ rest q, q ∈ rest → 1 < q.tgThreadId →
        Effect.probed env.tgChatId q.tgThreadId ∈ (runPairs env st (pair :: rest)).2) := by
  have hcond : ((env.probe env.tgChatId pair.tgThreadId).isNone
      || !isTopicNotFoundErr (env.probe env.tgChatId pair.tgThreadId)) = false := by
    rw [h2, isNone_false_of_notFound h2]
    rfl
  constructor
  · exact stepPair_notfound env st pair (by omega) hcond
  · intro rest q hq hgt
    simp only [runPairs, List.mem_append]
    exact Or.inr (probed_mem_runPairs env rest (stepPair env st pair).1 q hq (by omega))

theorem cascade_delete_independent_witness :
    stepPair envNotFound stA pairA =
      (ChatThreadDropPairByTg 100 50 (MsgIdDeletePairsByThreadId 100 50 stA),
       [Effect.probed 100 50, Effect.msgDelAttempt 100 50 true,
        Effect.pairDropAttempt 100 50 true]) :=
  (cascade_delete_independent envNotFound stA pairA (by decide) (by decide)).1

/-- C7: the scheduler never probes a default topic (no probed effect of a
tick carries a thread id of 0 or 1), and a ChatThreadPair row of the
default topic, as well as every MessageIdPair row of the default topic,
survives every tick unharmed. -/
theorem default_topics_never_touched (env : SchedulerEnv) (st : Store) :
    (∀ c t, Effect.probed c t ∈ (cleanupDeletedTopics env st).2 → 1 < t)
    ∧ (∀ p, p ∈ st.chatThreadPairs → p.tgThreadId = 0 ∨ p.tgThreadId = 1 →
        p ∈ (cleanupDeletedTopics env st).1.chatThreadPairs)
    ∧ (∀ m, m ∈ st.msgIdPairs → m.tgThreadId = 0 ∨ m.tgThreadId = 1 →
        m ∈ (cleanupDeletedTopics env st).1.msgIdPairs) := by
  unfold cleanupDeletedTopics
  by_cases hb : env.botPresent = true
  · rw [if_pos hb]
    by_cases hf : env.fetchOk = true
    · rw [if_pos hf]
      refine ⟨?_, ?_, ?_⟩
      · intro c t h
        simp only [List.mem_append, List.mem_cons, List.not_mem_nil] at h
        rcases h with (h | h | h) | h
        · cases h
        · cases h
        · cases h
        · exact (runPairs_preserve env (ChatThreadGetAllPairs env.tgChatId st) st).2.2 c t h
      · intro p hp hdef
        exact (runPairs_preserve env (ChatThreadGetAllPairs env.tgChatId st) st).1 p hp
          (by omega)
      · intro m hm hdef
        exact (runPairs_preserve env (ChatThreadGetAllPairs env.tgChatId st) st).2.1 m hm
          (by omega)
    · rw [if_neg hf]
      refine ⟨?_, fun p hp _ => hp, fun m hm _ => hm⟩
      intro c t h
      simp only [List.mem_cons, List.not_mem_nil] at h
      rcases h with h | h | h
      · cases h
      · cases h
      · cases h
  · rw [if_neg hb]
    refine ⟨?_, fun p hp _ => hp, fun m hm _ => hm⟩
    intro c t h
    simp at h

theorem default_topics_never_touched_witness :
    pairDefault ∈ (cleanupDeletedTopics envNotFound stA).1.chatThreadPairs :=
  (default_topics_never_touched envNotFound stA).2.1 pairDefault (by decide) (Or.inr rfl)

/-- C8 as stated is refuted: a probe error text can contain
TOPIC_NOT_MODIFIED and also a not-found signature, and then the code takes
the cascade-delete branch: the ChatThreadPair row is deleted and no
resynchronization is triggered, even though the text contains
TOPIC_NOT_MODIFIED. -/
theorem notmodified_claim_counterexample :
    isTopicNotModifiedErr (envBoth.probe envBoth.tgChatId pairA.tgThreadId) = true
    ∧ (stepPair envBoth stA pairA).1.chatThreadPairs = [pairDefault]
    ∧ Effect.resync envBoth.tgChatId ∉ (stepPair envBoth stA pairA).2 := by decide

/-- C8 amended: for a pairing row past the default topics, if the probe
error text contains TOPIC_NOT_MODIFIED and none of the not-found
signatures, the loop body leaves the store untouched and triggers the
topic-name resynchronization; and if the probe returns a nil error the
loop body leaves the store untouched and performs nothing but the probe. -/
theorem notmodified_no_delete_resync (env : SchedulerEnv) (st : Store)
    (pair : ChatThreadPair) (h1 : 1 < pair.tgThreadId) :
    (∀ s, env.probe env.tgChatId pair.tgThreadId = some s →
        isTopicNotModified s = true → isTopicNotFound s = false →
        stepPair env st pair =
          (st, [Effect.probed env.tgChatId pair.tgThreadId,
                Effect.resync env.tgChatId]))
    ∧ (env.probe env.tgChatId pair.tgThreadId = none →
        stepPair env st pair = (st, [Effect.probed env.tgChatId pair.tgThreadId])) := by
  constructor
  · intro s hs hmod hnf
    have hcond : ((env.probe env.tgChatId pair.tgThreadId).isNone
        || !isTopicNotFoundErr (env.probe env.tgChatId pair.tgThreadId)) = true := by
      rw [hs]
      simp [isTopicNotFoundErr, hnf]
    rw [stepPair_alive env st pair (by omega) hcond]
    rw [if_pos (by rw [hs]; exact hmod)]
  · intro hnil
    have hcond : ((env.probe env.tgChatId pair.tgThreadId).isNone
        || !isTopicNotFoundErr (env.probe env.tgChatId pair.tgThreadId)) = true := by
      rw [hnil]
      rfl
    rw [stepPair_alive env st pair (by omega) hcond]
    rw [if_neg (by rw [hnil]; exact Bool.false_ne_true)]

theorem notmodified_no_delete_resync_witness :
    stepPair envMod stA pairA = (stA, [Effect.probed 100 50, Effect.resync 100])
    ∧ stepPair envNil stA pairA = (stA, [Effect.probed 100 50]) :=
  ⟨(notmodified_no_delete_resync envMod stA pairA (by decide)).1
      "Bad Request: TOPIC_NOT_MODIFIED" rfl (by decide) (by decide),
   (notmodified_no_delete_resync envNil stA pairA (by decide)).2 rfl⟩

/-! ## Claim theorems about the orphan sweeper -/

def pairOtherChat : ChatThreadPair := { ID := "wa2", tgChatId := 200, tgThreadId := 50 }

def stCross : Store := { chatThreadPairs := [pairOtherChat], msgIdPairs := [msgA] }

/-- C5 as stated is refuted: the sweep SQL joins on the thread id only, so
a MessageIdPair row whose (tgChatId, tgThreadId) appears in no
ChatThreadPair row survives the sweep whenever some row of a different
group shares its thread id: here no pairing row has (tgChatId = 100,
tgThreadId = 50), yet the message row with that key is not deleted. -/
theorem orphan_sweep_chat_key_counterexample :
    (∀ b ∈ stCross.chatThreadPairs,
      ¬(b.tgChatId = msgA.tgChatId ∧ b.tgThreadId = msgA.tgThreadId))
    ∧ msgA ∈ (CleanUpMsg true true stCross).msgIdPairs := by decide

/-- C5 amended: a successful run of the orphan sweeper deletes exactly
those MessageIdPair rows whose tgThreadId appears in no ChatThreadPair
row (the delete is keyed on the thread id alone, not on the pair of group
id and thread id), keeps every other message row, and leaves the
ChatThreadPair table unchanged. -/
theorem orphan_sweep_thread_anti_join (st : Store) :
    (CleanUpMsg true true st).chatThreadPairs = st.chatThreadPairs
    ∧ ∀ m, m ∈ (CleanUpMsg true true st).msgIdPairs ↔
        (m ∈ st.msgIdPairs ∧ ∃ b ∈ st.chatThreadPairs, b.tgThreadId = m.tgThreadId) := by
  constructor
  · rfl
  · intro m
    show m ∈ st.msgIdPairs.filter (fun a =>
        st.chatThreadPairs.any (fun b => b.tgThreadId == a.tgThreadId)) ↔ _
    rw [List.mem_filter]
    simp [List.any_eq_true]

/-- C9: the orphan sweeper is idempotent: on any store, a second
successful sweep right after a first one deletes zero rows, and the store
after the second sweep equals the store after the first. -/
theorem orphan_sweep_idempotent (st : Store) :
    CleanUpMsg true true (CleanUpMsg true true st) = CleanUpMsg true true st
    ∧ cleanUpMsgRowsAffected (CleanUpMsg true true st) = 0 := by
  obtain ⟨cps, ms⟩ := st
  have hsecond : (ms.filter (fun a =>
        cps.any (fun b => b.tgThreadId == a.tgThreadId))).filter (fun a =>
        cps.any (fun b => b.tgThreadId == a.tgThreadId))
      = ms.filter (fun a => cps.any (fun b => b.tgThreadId == a.tgThreadId)) := by
    apply List.filter_eq_self.mpr
    intro a ha
    exact (List.mem_filter.mp ha).2
  constructor
  · show Store.mk cps ((ms.filter (fun a =>
        cps.any (fun b => b.tgThreadId == a.tgThreadId))).filter (fun a =>
        cps.any (fun b => b.tgThreadId == a.tgThreadId)))
      = Store.mk cps (ms.filter (fun a => cps.any (fun b => b.tgThreadId == a.tgThreadId)))
    rw [hsecond]
  · show ((ms.filter (fun a => cps.any (fun b => b.tgThreadId == a.tgThreadId))).filter
        (fun a => !(cps.any (fun b => b.tgThreadId == a.tgThreadId)))).length = 0
    rw [List.length_eq_zero]
    apply List.filter_eq_nil_iff.mpr
    intro a ha
    simp only [(List.mem_filter.mp ha).2, not_true, Bool.not_true]
    exact Bool.false_ne_true

/-! ## Claim theorem about the nil bot guard -/

/-- C10: when the Telegram bot handle is nil, cleanupDeletedTopics returns
immediately: the store is unchanged and the effect trace is empty, so no
contact resynchronization, no pairing fetch, no probe and no deletion
happens. -/
theorem bot_nil_noop (env : SchedulerEnv) (st : Store)
    (h : env.botPresent = false) : cleanupDeletedTopics env st = (st, []) := by
  unfold cleanupDeletedTopics
  rw [h]
  rfl

theorem bot_nil_noop_witness : cleanupDeletedTopics envNoBot stA = (stA, []) :=
  bot_nil_noop envNoBot stA rfl

end Watgbridge
